import Mathlib

/-!
Verification of the Deepseek decoder architecture
(`python/mlc_llm/model/deepseek/deepseek_model.py`).

Hidden-state rows are modelled as lists of rationals (`Vec`); linear layers as
explicit weight matrices (lists of rows).  The backend activation primitive
`op.silu` is transcendental, so every feed-forward definition is parametrised
by an abstract scalar function `silu : ℚ → ℚ` standing for that external
kernel.  The mixture-of-experts routing helpers (`gating_softmax_topk`,
`moe_cumsum`, `get_indices`, `get_indptr`, `scatter_output`, `moe_sum`) and
`MixtralExperts` live in `mlc_llm.op.moe_misc` and `mlc_llm.nn.expert`, which
are outside this repository snapshot; they are modelled from the spec, as
marked on each definition.
-/

namespace Deepseek

/-- A hidden-state row: one token's feature vector, as exact rationals. -/
abbrev Vec := List ℚ

/-- A weight matrix, stored as a list of output-neuron rows. -/
abbrev Matrix := List Vec

/-- Dot product of two rows (truncating to the shorter, as shapes always agree
in the source). -/
def dotQ (a b : Vec) : ℚ := (List.zipWith (fun x y => x * y) a b).sum

/-- Linear layer `nn.Linear` without bias: each output coordinate is a dot product with one
weight row. -/
def linear (w : Matrix) (x : Vec) : Vec := w.map (fun row => dotQ row x)

/-- The gated feed-forward combination shared by `DeepseekMLP.forward` and the
expert transform `_expert_forward`: split the fused gate-up projection into two
halves `x1, x2` and return `down_proj (silu x1 * x2)`
(`deepseek_model.py` lines 156-159 and 187-191). -/
def gluForward (silu : ℚ → ℚ) (gateUp down : Matrix) (x : Vec) : Vec :=
  let y := linear gateUp x
  let x1 := y.take (y.length / 2)
  let x2 := y.drop (y.length / 2)
  linear down (List.zipWith (fun a b => silu a * b) x1 x2)

/-- Modelled from the spec: the stable bucket of expert `e` in the
counting-sort router (`mlc_llm.op.moe_misc.moe_cumsum` / `get_indices`, not in
`src/`): the positions, in original flattened order, of the assignments routed
to expert `e` (spec 4.2: "conceptually a stable counting sort keyed by expert
id"). -/
def expertBucket (inds : List Nat) (e : Nat) : List Nat :=
  (List.range inds.length).filter (fun p => decide (inds[p]? = some e))

/-- Modelled from the spec: the dispatch order / `reverse_indices` produced by
`mlc_llm.op.moe_misc.get_indices` (not in `src/`): position `i` of the result
is the original flattened position of the assignment executed at dispatch slot
`i`, grouped by expert with original order kept inside each bucket (spec 4.2,
"Inverse Permutation" in the data model). -/
def dispatchOrder (inds : List Nat) (numExperts : Nat) : List Nat :=
  (List.range numExperts).flatMap (fun e => expertBucket inds e)

/-- Number of assignments routed to expert `e`. -/
def expertCount (inds : List Nat) (e : Nat) : Nat :=
  inds.countP (fun x => x == e)

/-- Modelled from the spec: `mlc_llm.op.moe_misc.get_indptr` with
`inclusive=False` (not in `src/`): the exclusive prefix sum of per-expert
assignment counts, length `numExperts + 1` (spec 4.2 step 3). -/
def getIndptr (inds : List Nat) (numExperts : Nat) : List Nat :=
  (List.range (numExperts + 1)).map
    (fun e => ((List.range e).map (fun e' => expertCount inds e')).sum)

/-- Modelled from the spec: `mlc_llm.op.moe_misc.scatter_output` (not in
`src/`): writes row `i` of `rows` to position `rev i` of an output of length
`len` (spec 4.4: "scatter executed rows back using reverse_indices"). -/
def scatterOutput (rows : List α) (rev : List Nat) (len : Nat) (d : α) : List α :=
  (rev.zip rows).foldl (fun acc pr => acc.set pr.1 pr.2) (List.replicate len d)

/-- Modelled from the spec: the grouped expert execution of `MixtralExperts`
(`mlc_llm.nn.expert`, not in `src/`): for each expert `e`, apply `f e` to the
rows in `[indptr e, indptr (e+1))` of the dispatched batch (spec 4.3). -/
def segExec (f : Nat → α → β) (indptr : List Nat) (numExperts : Nat)
    (rows : List α) : List β :=
  (List.range numExperts).flatMap
    (fun e =>
      ((rows.drop (indptr.getD e 0)).take (indptr.getD (e + 1) 0 - indptr.getD e 0)).map
        (f e))

/-- The dispatch-order batch, grouped into per-expert segments, with payload `g`
applied to each original position. -/
def bucketMap (inds : List Nat) (numExperts : Nat) (g : Nat → α) : List (List α) :=
  (List.range numExperts).map (fun e => (expertBucket inds e).map g)

/-- Elementwise addition of two rows (shapes always agree in the source). -/
def vadd (a b : Vec) : Vec := List.zipWith (fun x y => x + y) a b

/-- A scalar gate weight times a row (the broadcast multiply at line 222). -/
def smulV (c : ℚ) (v : Vec) : Vec := v.map (fun x => c * x)

/-- Modelled from the spec: `mlc_llm.op.moe_misc.moe_sum` over the
experts-per-token axis (not in `src/`): sum of a list of equal-length rows. -/
def vsum : List Vec → Vec
  | [] => []
  | v :: t => t.foldl vadd v

/-- The combiner weighting-and-sum (source lines 220-226): token `t`'s output is
the weighted sum over its `k` slots of the routed rows, with weights read in
original `(token, slot)` order. -/
def combineRouted (numTokens k : Nat) (weights : List ℚ) (rows : List Vec) : List Vec :=
  (List.range numTokens).map
    (fun t => vsum ((List.range k).map
      (fun j => smulV (weights.getD (t * k + j) 0) (rows.getD (t * k + j) []))))

/-- Modelled from the spec: the single-token fast path of `MixtralExperts`
(`mlc_llm.nn.expert`, not in `src/`; used at source line 205): the k selected
experts are applied directly in gating order to the sole token (spec 4.1 and 4.4
edge cases). -/
def moeRoutedFast (silu : ℚ → ℚ) (gateUp down : Nat → Matrix) (tokens : List Vec)
    (inds : List Nat) : List Vec :=
  inds.map (fun e => gluForward silu (gateUp e) (down e) (tokens.getD 0 []))

/-- The general batched path (source lines 207-218): counting-sort dispatch,
gather of token rows by `token_indices`, grouped expert execution over the
`indptr` ranges, scatter back by `reverse_indices`. -/
def moeRoutedGeneral (silu : ℚ → ℚ) (gateUp down : Nat → Matrix)
    (numExperts k : Nat) (tokens : List Vec) (inds : List Nat) : List Vec :=
  scatterOutput
    (segExec (fun e v => gluForward silu (gateUp e) (down e) v)
      (getIndptr inds numExperts) numExperts
      ((dispatchOrder inds numExperts).map (fun p => tokens.getD (p / k) [])))
    (dispatchOrder inds numExperts) inds.length []

/-- Symbolic activation kinds of the `ACT2FN` table (source lines 133-139); the
numeric kernels themselves are external primitives. -/
inductive ActKind where
  | gelu (approximate : Bool)
  | relu
  | silu
  deriving DecidableEq

/-- The `ACT2FN` table (source lines 133-139). -/
def ACT2FN (s : String) : Option ActKind :=
  if s = "gelu" then some (ActKind.gelu false)
  else if s = "relu" then some ActKind.relu
  else if s = "silu" then some ActKind.silu
  else if s = "swish" then some ActKind.silu
  else if s = "gelu_new" then some (ActKind.gelu true)
  else none

/-- Configuration `DeepseekConfig` (source lines 25-54). `n_shared_experts` is kept optional
because the source guards it with `is not None` (line 181). -/
structure DeepseekConfig where
  vocab_size : Nat
  hidden_size : Nat
  intermediate_size : Nat
  moe_intermediate_size : Nat
  num_hidden_layers : Nat
  num_attention_heads : Nat
  num_key_value_heads : Nat
  n_shared_experts : Option Nat
  n_routed_experts : Nat
  moe_layer_freq : Nat
  first_k_dense_replace : Nat
  hidden_act : String
  norm_topk_prob : Bool
  attention_bias : Bool
  rms_norm_eps : ℚ
  use_cache : Bool
  bos_token_id : Nat
  eos_token_id : Nat
  tie_word_embeddings : Bool := false
  rope_theta : Nat := 10000
  context_window_size : Nat := 0
  prefill_chunk_size : Nat := 0
  tensor_parallel_shards : Nat := 1
  max_batch_size : Nat := 1
  num_experts_per_tok : Nat := 0
  kwargs : List (String × Nat) := []

/-- Structure `DeepseekMLP` (source lines 142-154): the activation selected from `ACT2FN`
at construction (line 154) is stored but never consulted by `forward`. -/
structure DeepseekMLP where
  intermediate_size : Nat
  gate_up_proj : Matrix
  down_proj : Matrix
  act_fn : ActKind

/-- Constructor `DeepseekMLP.__init__` (source lines 143-154): fails when the configured
dense intermediate size does not split evenly over the parallel shards
(lines 145-149), or when `hidden_act` is not a key of `ACT2FN` (line 154);
the `intermediate_size` argument overrides the configured one (line 150). -/
def DeepseekMLP.init (c : DeepseekConfig) (intermediate : Option Nat)
    (gateUp down : Matrix) : Except String DeepseekMLP :=
  if c.intermediate_size % c.tensor_parallel_shards ≠ 0 then
    Except.error ("Cannot split MLP intermediate size evenly to GPUs.")
  else
    match ACT2FN c.hidden_act with
    | some a =>
        Except.ok
          { intermediate_size := intermediate.getD c.intermediate_size
            gate_up_proj := gateUp
            down_proj := down
            act_fn := a }
    | none => Except.error ("KeyError: hidden_act not found in ACT2FN")

/-- Forward pass `DeepseekMLP.forward` (source lines 156-159): always the silu-gated
combination `down_proj (silu x1 * x2)`; the stored `act_fn` is not consulted. -/
def DeepseekMLP.forward (silu : ℚ → ℚ) (m : DeepseekMLP) (x : Vec) : Vec :=
  gluForward silu m.gate_up_proj m.down_proj x

/-- Structure `DeepseekMoE` (source lines 162-183). -/
structure DeepseekMoE where
  num_local_experts : Nat
  num_experts_per_tok : Nat
  norm_topk_prob : Bool
  moe_intermediate_size : Nat
  moe_gate_up_proj : Nat → Matrix
  moe_down_proj : Nat → Matrix
  shared_experts : Option DeepseekMLP

/-- Constructor `DeepseekMoE.__init__` (source lines 163-183): the shared-expert MLP, with
intermediate width `moe_intermediate_size * n_shared_experts`, is created only
when `n_shared_experts` is not `None` (lines 181-183). -/
def DeepseekMoE.init (c : DeepseekConfig) (gateUp down : Nat → Matrix)
    (sharedGateUp sharedDown : Matrix) : Except String DeepseekMoE := do
  let shared ←
    match c.n_shared_experts with
    | some m =>
        (DeepseekMLP.init c (some (c.moe_intermediate_size * m)) sharedGateUp
          sharedDown).map (fun s => some s)
    | none => Except.ok none
  Except.ok
    { num_local_experts := c.n_routed_experts
      num_experts_per_tok := c.num_experts_per_tok
      norm_topk_prob := c.norm_topk_prob
      moe_intermediate_size := c.moe_intermediate_size
      moe_gate_up_proj := gateUp
      moe_down_proj := down
      shared_experts := shared }

/-- Forward pass `DeepseekMoE.forward` (source lines 186-232), taking the gating result
(`expert_weights`, `expert_indices`, produced by the external
`gating_softmax_topk` kernel) as explicit inputs. Returns `none` when
`shared_experts` was never set: the unconditional attribute access at line 228
then fails. -/
def DeepseekMoE.forward (silu : ℚ → ℚ) (moe : DeepseekMoE) (tokens : List Vec)
    (weights : List ℚ) (inds : List Nat) : Option (List Vec) :=
  moe.shared_experts.map
    (fun sh =>
      List.zipWith vadd
        (combineRouted tokens.length moe.num_experts_per_tok weights
          (if tokens.length == 1 then
            moeRoutedFast silu moe.moe_gate_up_proj moe.moe_down_proj tokens inds
          else
            moeRoutedGeneral silu moe.moe_gate_up_proj moe.moe_down_proj
              moe.num_local_experts moe.num_experts_per_tok tokens inds))
        (tokens.map (DeepseekMLP.forward silu sh)))

/-- The reference strategy compared against in the refinement claim: the MoE
block output computed with the general batched dispatch path regardless of the
number of tokens. -/
def DeepseekMoE.forwardGeneralPath (silu : ℚ → ℚ) (moe : DeepseekMoE)
    (tokens : List Vec) (weights : List ℚ) (inds : List Nat) : Option (List Vec) :=
  moe.shared_experts.map
    (fun sh =>
      List.zipWith vadd
        (combineRouted tokens.length moe.num_experts_per_tok weights
          (moeRoutedGeneral silu moe.moe_gate_up_proj moe.moe_down_proj
            moe.num_local_experts moe.num_experts_per_tok tokens inds))
        (tokens.map (DeepseekMLP.forward silu sh)))

/-- A tiny concrete MoE module: two experts over a two-dimensional hidden
space, expert intermediate width one, a shared expert present. -/
def moeW : DeepseekMoE where
  num_local_experts := 2
  num_experts_per_tok := 2
  norm_topk_prob := false
  moe_intermediate_size := 1
  moe_gate_up_proj := fun e => if e = 0 then [[1, 0], [0, 1]] else [[0, 1], [1, 0]]
  moe_down_proj := fun e => if e = 0 then [[1], [2]] else [[3], [4]]
  shared_experts := some
    { intermediate_size := 2
      gate_up_proj := [[1, 1], [1, -1], [2, 0], [0, 2]]
      down_proj := [[1, 1], [1, -1]]
      act_fn := ActKind.silu }

/-- The tie-breaking total order on expert positions used by top-k selection:
strictly larger softmax value first, lower expert index first among equals. -/
def topkKey (probs : List ℚ) (a b : Nat) : Prop :=
  probs.getD b 0 < probs.getD a 0 ∨ (probs.getD a 0 = probs.getD b 0 ∧ a ≤ b)

instance (probs : List ℚ) : DecidableRel (topkKey probs) := fun a b =>
  inferInstanceAs (Decidable
    (probs.getD b 0 < probs.getD a 0 ∨ (probs.getD a 0 = probs.getD b 0 ∧ a ≤ b)))

instance (probs : List ℚ) : IsTrans Nat (topkKey probs) where
  trans a b c hab hbc := by
    rcases hab with h1 | ⟨e1, le1⟩
    · rcases hbc with h2 | ⟨e2, le2⟩
      · exact Or.inl (lt_trans h2 h1)
      · exact Or.inl (by rw [← e2]; exact h1)
    · rcases hbc with h2 | ⟨e2, le2⟩
      · exact Or.inl (by rw [e1]; exact h2)
      · exact Or.inr ⟨by rw [e1, e2], Nat.le_trans le1 le2⟩

instance (probs : List ℚ) : IsTotal Nat (topkKey probs) where
  total a b := by
    rcases lt_trichotomy (probs.getD a 0) (probs.getD b 0) with h | h | h
    · exact Or.inr (Or.inl h)
    · rcases Nat.le_total a b with hle | hle
      · exact Or.inl (Or.inr ⟨h, hle⟩)
      · exact Or.inr (Or.inr ⟨h.symm, hle⟩)
    · exact Or.inl (Or.inl h)

/-- Modelled from the spec: `gating_softmax_topk` from `mlc_llm.op.moe_misc`
(not in `src/`, used at source lines 199-201). The softmax itself is the
external transcendental kernel, so its per-token output is taken as the input
`probs` (a positive vector summing to one). Selection takes the `k` best expert
positions under `topkKey` (ties broken by lowest expert index); with
`norm_topk_prob` the selected weights are rescaled by their sum, otherwise the
raw softmax values are kept (spec 4.1). -/
def gatingTopk (probs : List ℚ) (k : Nat) (norm : Bool) : List ℚ × List Nat :=
  let sel := (List.insertionSort (topkKey probs) (List.range probs.length)).take k
  let raw := sel.map (fun i => probs.getD i 0)
  (if norm then raw.map (fun w => w / raw.sum) else raw, sel)

/-- The two feed-forward sub-layer shapes a decoder layer can carry. -/
inductive FFNKind where
  | moe
  | dense
  deriving DecidableEq

/-- The feed-forward sub-layer choice made once in
`DeepseekDecoderLayer.__init__` (source lines 241-249). `n_routed_experts` is a
required `int` field of the config dataclass, so its `is not None` guard at
line 244 always holds. -/
def decoderFFNKind (c : DeepseekConfig) (layer_idx : Nat) : FFNKind :=
  if c.first_k_dense_replace ≤ layer_idx ∧ layer_idx % c.moe_layer_freq = 0 then
    FFNKind.moe
  else
    FFNKind.dense

/-- Lookup `name in kwargs` followed by `kwargs.pop(name)`, as an association-list
lookup. -/
def lookupKwarg (kw : List (String × Nat)) (name : String) : Option Nat :=
  (kw.find? (fun pr => pr.1 == name)).map (fun pr => pr.2)

/-- The first stage of `__post_init__` (source lines 57-73): when
`context_window_size` is zero, fall back to `max_position_embeddings` then
`max_sequence_length` from the kwargs (popping the used key), and fail when
neither is present. -/
def resolveContextWindow (c : DeepseekConfig) : Except String DeepseekConfig :=
  if c.context_window_size = 0 then
    match lookupKwarg c.kwargs ("max_position_embeddings") with
    | some v =>
        Except.ok { c with
          context_window_size := v
          kwargs := c.kwargs.eraseP (fun pr => pr.1 == "max_position_embeddings") }
    | none =>
        match lookupKwarg c.kwargs ("max_sequence_length") with
        | some v =>
            Except.ok { c with
              context_window_size := v
              kwargs := c.kwargs.eraseP (fun pr => pr.1 == "max_sequence_length") }
        | none =>
            Except.error ("Unable to determine the maximum sequence length.")
  else Except.ok c

/-- The second stage of `__post_init__` (source lines 74-88): clamp
`prefill_chunk_size` when zero or larger than the context window. -/
def clampPrefillChunk (c : DeepseekConfig) : DeepseekConfig :=
  if c.prefill_chunk_size = 0 then
    { c with prefill_chunk_size := min c.context_window_size 2048 }
  else if c.context_window_size < c.prefill_chunk_size then
    { c with prefill_chunk_size := min c.context_window_size 2048 }
  else c

/-- Validation `DeepseekConfig.__post_init__` (source lines 56-89): resolve the context
window, clamp the prefill chunk size, then assert that
`tensor_parallel_shards` is 1 (line 89) — sharding is forbidden for this
architecture. -/
def postInit (c : DeepseekConfig) : Except String DeepseekConfig := do
  let c ← resolveContextWindow c
  let c := clampPrefillChunk c
  if c.tensor_parallel_shards = 1 then
    Except.ok c
  else
    Except.error ("Deepseek currently does not support sharding.")

/-- The scalar fields of `DeepseekAttention` (source lines 96-118); the
projection weights and the paged-KV-cache attention call are external. -/
structure DeepseekAttention where
  hidden_size : Nat
  num_heads : Nat
  num_key_value_heads : Nat
  head_dim : Nat

/-- Constructor `DeepseekAttention.__init__` (source lines 96-118): fails when the
attention head count does not split evenly over the parallel shards
(lines 100-104). -/
def DeepseekAttention.init (c : DeepseekConfig) : Except String DeepseekAttention :=
  if c.num_attention_heads % c.tensor_parallel_shards ≠ 0 then
    Except.error ("Cannot split attention heads evenly to GPUs.")
  else
    Except.ok
      { hidden_size := c.hidden_size
        num_heads := c.num_attention_heads
        num_key_value_heads := c.num_key_value_heads
        head_dim := c.hidden_size / c.num_attention_heads }

/-- The `_index` slice used by prefill (source lines 330-332): keep only the
hidden state at the final sequence position. -/
def indexLast (hs : List Vec) : List Vec := [hs.getD (hs.length - 1) []]

/-- The dtypes a model can be cast to with `to()`. -/
inductive DType where
  | float32
  | float16
  | bfloat16
  deriving DecidableEq

/-- A tensor tagged with its dtype; the numeric content is exact here and the
`astype` cast is dtype bookkeeping (the numeric conversion is external). -/
structure TypedTensor where
  dtype : DType
  data : List Vec

/-- The cast guard shared by all logits-returning entry points (source lines
320-321, 338-339, 347-348): `astype` to float32 unless already float32. -/
def castLogitsToF32 (t : TypedTensor) : TypedTensor :=
  if t.dtype ≠ DType.float32 then { t with dtype := DType.float32 } else t

/-- Entry point `DeepseekForCausalLM.batch_forward` (source lines 308-322): run the model
(its output `hs` is taken as input; the transformer stack is the external
collaborator), optionally take per-sequence logit positions, apply `lm_head`
(whose output carries the model dtype), and cast to float32. -/
def batch_forward (lmHead : Matrix) (dtype : DType) (hs : List Vec)
    (logit_positions : Option (List Nat)) : TypedTensor :=
  castLogitsToF32
    { dtype := dtype
      data :=
        (match logit_positions with
          | some ps => ps.map (fun p => hs.getD p [])
          | none => hs).map (fun v => linear lmHead v) }

/-- Entry point `prefill` (source lines 327-340): slice the final position, apply
`lm_head`, cast to float32. -/
def prefill (lmHead : Matrix) (dtype : DType) (hs : List Vec) : TypedTensor :=
  castLogitsToF32
    { dtype := dtype, data := (indexLast hs).map (fun v => linear lmHead v) }

/-- Entry point `decode` (source lines 342-349). -/
def decode (lmHead : Matrix) (dtype : DType) (hs : List Vec) : TypedTensor :=
  castLogitsToF32 { dtype := dtype, data := hs.map (fun v => linear lmHead v) }

/-- Entry point `batch_prefill` (source lines 351-355). -/
def batch_prefill (lmHead : Matrix) (dtype : DType) (hs : List Vec)
    (logit_positions : List Nat) : TypedTensor :=
  batch_forward lmHead dtype hs (some logit_positions)

/-- Entry point `batch_decode` (source lines 357-359). -/
def batch_decode (lmHead : Matrix) (dtype : DType) (hs : List Vec) : TypedTensor :=
  batch_forward lmHead dtype hs none

/-- Entry point `batch_verify` (source lines 361-363). -/
def batch_verify (lmHead : Matrix) (dtype : DType) (hs : List Vec) : TypedTensor :=
  batch_forward lmHead dtype hs none

/-- A concrete configuration with `n_shared_experts = None`; all other fields
are well-formed. -/
def cfgNoShared : DeepseekConfig where
  vocab_size := 32
  hidden_size := 2
  intermediate_size := 4
  moe_intermediate_size := 1
  num_hidden_layers := 2
  num_attention_heads := 2
  num_key_value_heads := 2
  n_shared_experts := none
  n_routed_experts := 2
  moe_layer_freq := 1
  first_k_dense_replace := 1
  hidden_act := "silu"
  norm_topk_prob := false
  attention_bias := false
  rms_norm_eps := 1 / 1000000
  use_cache := true
  bos_token_id := 1
  eos_token_id := 2
  context_window_size := 16
  prefill_chunk_size := 16
  tensor_parallel_shards := 1
  num_experts_per_tok := 2

/-- The same configuration with two shared experts. -/
def cfgShared : DeepseekConfig := { cfgNoShared with n_shared_experts := some 2 }

/-- The module `DeepseekMoE.init cfgShared` produces on concrete weights. -/
def moeShared : DeepseekMoE where
  num_local_experts := 2
  num_experts_per_tok := 2
  norm_topk_prob := false
  moe_intermediate_size := 1
  moe_gate_up_proj := fun _ => [[1, 0], [0, 1]]
  moe_down_proj := fun _ => [[1], [2]]
  shared_experts := some
    { intermediate_size := 2
      gate_up_proj := [[1, 1], [1, -1]]
      down_proj := [[1], [1]]
      act_fn := ActKind.silu }

/-- A configuration violating every construction-time check at once: zero
context window with empty kwargs, two parallel shards, three attention heads,
dense intermediate size three. -/
def cfgBad : DeepseekConfig := { cfgNoShared with
  context_window_size := 0
  kwargs := []
  tensor_parallel_shards := 2
  num_attention_heads := 3
  intermediate_size := 3 }

theorem expertBucket_nodup (inds : List Nat) (e : Nat) : (expertBucket inds e).Nodup :=
  (List.nodup_range _).filter _

theorem mem_expertBucket {inds : List Nat} {e p : Nat} :
    p ∈ expertBucket inds e ↔ p < inds.length ∧ inds[p]? = some e := by
  simp [expertBucket, List.mem_filter, List.mem_range]

theorem dispatchOrder_nodup (inds : List Nat) (numExperts : Nat) :
    (dispatchOrder inds numExperts).Nodup := by
  rw [dispatchOrder, List.nodup_flatMap]
  refine ⟨fun e _ => expertBucket_nodup inds e, ?_⟩
  have hlt : List.Pairwise (fun a b => a ≠ b) (List.range numExperts) :=
    (List.nodup_range numExperts)
  refine hlt.imp ?_
  intro e e' hne p hp hp'
  rcases mem_expertBucket.mp hp with ⟨-, h1⟩
  rcases mem_expertBucket.mp hp' with ⟨-, h2⟩
  exact hne (by rw [h1] at h2; exact Option.some.inj h2)

theorem mem_dispatchOrder {inds : List Nat} {numExperts p : Nat} :
    p ∈ dispatchOrder inds numExperts ↔
      ∃ e, e < numExperts ∧ p < inds.length ∧ inds[p]? = some e := by
  simp only [dispatchOrder, List.mem_flatMap, List.mem_range, mem_expertBucket]

theorem dispatchOrder_perm_range (inds : List Nat) (numExperts : Nat)
    (hvalid : ∀ x ∈ inds, x < numExperts) :
    List.Perm (dispatchOrder inds numExperts) (List.range inds.length) := by
  apply List.Subperm.antisymm
  · apply List.Nodup.subperm (dispatchOrder_nodup inds numExperts)
    intro p hp
    rcases mem_dispatchOrder.mp hp with ⟨e, -, h1, -⟩
    exact List.mem_range.mpr h1
  · apply List.Nodup.subperm (List.nodup_range _)
    intro p hp
    have h1 : p < inds.length := List.mem_range.mp hp
    refine mem_dispatchOrder.mpr ⟨inds[p], ?_, h1, ?_⟩
    · exact hvalid _ (List.getElem_mem h1)
    · exact List.getElem?_eq_getElem h1

theorem foldl_set_length (pairs : List (Nat × α)) (acc : List α) :
    (pairs.foldl (fun a pr => a.set pr.1 pr.2) acc).length = acc.length := by
  induction pairs generalizing acc with
  | nil => rfl
  | cons pr rest ih => simp only [List.foldl_cons]; rw [ih, List.length_set]

theorem foldl_set_getD (g : Nat → α) (d : α) (pairs : List (Nat × α)) (acc : List α)
    (hp : ∀ pr ∈ pairs, pr.2 = g pr.1) (q : Nat) (hq : q < acc.length)
    (hcov : q ∈ pairs.map Prod.fst ∨ acc.getD q d = g q) :
    (pairs.foldl (fun a pr => a.set pr.1 pr.2) acc).getD q d = g q := by
  induction pairs generalizing acc with
  | nil =>
    simp only [List.foldl_nil]
    simpa using hcov
  | cons pr rest ih =>
    simp only [List.foldl_cons]
    have hq' : q < (acc.set pr.1 pr.2).length := by rwa [List.length_set]
    apply ih (acc.set pr.1 pr.2) (fun x hx => hp x (List.mem_cons_of_mem _ hx)) hq'
    have hset : ∀ h : q < (acc.set pr.1 pr.2).length,
        (acc.set pr.1 pr.2).getD q d = if pr.1 = q then pr.2 else acc.getD q d := by
      intro h
      rw [List.getD_eq_getElem _ _ h, List.getElem_set]
      split
      · rfl
      · rw [List.getD_eq_getElem _ _ hq]
    rcases hcov with hmem | hval
    · rcases List.mem_cons.mp hmem with heq | hmem'
      · right
        rw [hset hq', if_pos heq.symm]
        rw [hp pr (List.mem_cons_self _ _), heq]
      · left; exact hmem'
    · right
      rw [hset hq']
      split
      · rename_i he
        rw [hp pr (List.mem_cons_self _ _), he]
      · exact hval

theorem scatterOutput_map (g : Nat → α) (d : α) (rev : List Nat) (len : Nat)
    (hperm : List.Perm rev (List.range len)) :
    scatterOutput (rev.map g) rev len d = (List.range len).map g := by
  rw [scatterOutput]
  have hzip : rev.zip (rev.map g) = rev.map (fun p => (p, g p)) := by
    simpa using List.zip_map' id g rev
  rw [hzip]
  have hlen : (((rev.map (fun p => (p, g p))).foldl
      (fun a pr => a.set pr.1 pr.2) (List.replicate len d))).length = len := by
    rw [foldl_set_length, List.length_replicate]
  apply List.ext_getElem
  · rw [hlen, List.length_map, List.length_range]
  · intro n h1 h2
    rw [List.getElem_map, List.getElem_range]
    rw [← List.getD_eq_getElem _ d h1]
    apply foldl_set_getD
    · intro pr hpr
      rcases List.mem_map.mp hpr with ⟨p, -, hp⟩
      rw [← hp]
    · rw [List.length_replicate]; rw [hlen] at h1; exact h1
    · left
      have : (rev.map (fun p => (p, g p))).map Prod.fst = rev := by
        rw [List.map_map]
        exact List.map_id rev
      rw [this]
      rw [hlen] at h1
      exact (hperm.mem_iff).mpr (List.mem_range.mpr h1)

theorem expertBucket_cons (a e : Nat) (t : List Nat) :
    expertBucket (a :: t) e
      = if a = e then 0 :: (expertBucket t e).map Nat.succ
        else (expertBucket t e).map Nat.succ := by
  rw [expertBucket, expertBucket, List.length_cons, List.range_succ_eq_map,
    List.filter_cons, List.filter_map]
  have hcongr : List.filter ((fun p => decide ((a :: t)[p]? = some e)) ∘ Nat.succ)
      (List.range t.length)
      = List.filter (fun p => decide (t[p]? = some e)) (List.range t.length) := by
    apply List.filter_congr
    intro p hp
    simp
  rw [hcongr]
  by_cases he : a = e
  · rw [if_pos he, if_pos (by simp [he])]
  · rw [if_neg he, if_neg (by simp [he])]

theorem expertBucket_length (inds : List Nat) (e : Nat) :
    (expertBucket inds e).length = expertCount inds e := by
  induction inds with
  | nil => rfl
  | cons a t ih =>
    rw [expertBucket_cons, expertCount, List.countP_cons]
    by_cases he : a = e
    · rw [if_pos he, List.length_cons, List.length_map, ih, expertCount,
        if_pos (by simp [he])]
    · rw [if_neg he, List.length_map, ih, expertCount, if_neg (by simp [he]),
        Nat.add_zero]

theorem getIndptr_length (inds : List Nat) (numExperts : Nat) :
    (getIndptr inds numExperts).length = numExperts + 1 := by
  rw [getIndptr, List.length_map, List.length_range]

theorem getIndptr_getD (inds : List Nat) (numExperts e : Nat) (he : e ≤ numExperts) :
    (getIndptr inds numExperts).getD e 0
      = ((List.range e).map (fun e' => expertCount inds e')).sum := by
  have hlt : e < ((List.range (numExperts + 1)).map
      (fun e => ((List.range e).map (fun e' => expertCount inds e')).sum)).length := by
    rw [List.length_map, List.length_range]; omega
  rw [getIndptr, List.getD_eq_getElem _ _ hlt, List.getElem_map, List.getElem_range]

theorem sum_range_map_succ (f : Nat → Nat) (n : Nat) :
    ((List.range (n + 1)).map f).sum = ((List.range n).map f).sum + f n := by
  rw [List.range_succ, List.map_append, List.sum_append]
  simp

theorem getIndptr_diff (inds : List Nat) (numExperts e : Nat) (he : e < numExperts) :
    (getIndptr inds numExperts).getD (e + 1) 0 - (getIndptr inds numExperts).getD e 0
      = expertCount inds e := by
  rw [getIndptr_getD inds numExperts e (Nat.le_of_lt he),
    getIndptr_getD inds numExperts (e + 1) he, sum_range_map_succ]
  omega

theorem sum_ite_range (a n : Nat) :
    ((List.range n).map (fun e => if a == e then 1 else 0)).sum
      = if a < n then 1 else 0 := by
  induction n with
  | zero => simp
  | succ n ih =>
    rw [sum_range_map_succ, ih]
    by_cases h : a = n
    · subst h
      simp
    · have hbeq : (a == n) = false := by simp [h]
      rw [hbeq]
      simp only [Bool.false_eq_true, if_false]
      split_ifs <;> omega

theorem sum_expertCount (inds : List Nat) (numExperts : Nat)
    (hvalid : ∀ x ∈ inds, x < numExperts) :
    ((List.range numExperts).map (fun e => expertCount inds e)).sum = inds.length := by
  induction inds with
  | nil => simp [expertCount]
  | cons a t ih =>
    have hvt : ∀ x ∈ t, x < numExperts := fun x hx => hvalid x (List.mem_cons_of_mem _ hx)
    have hmapsplit : (List.range numExperts).map (fun e => expertCount (a :: t) e)
        = (List.range numExperts).map
            (fun e => expertCount t e + if a == e then 1 else 0) := by
      apply List.map_congr_left
      intro e _
      rw [expertCount, expertCount, List.countP_cons]
    rw [hmapsplit]
    have hsplit : ((List.range numExperts).map
        (fun e => expertCount t e + if a == e then 1 else 0)).sum
        = ((List.range numExperts).map (fun e => expertCount t e)).sum
          + ((List.range numExperts).map (fun e => if a == e then 1 else 0)).sum := by
      induction List.range numExperts with
      | nil => rfl
      | cons b r ihr => simp only [List.map_cons, List.sum_cons, ihr]; ring
    rw [hsplit, ih hvt, sum_ite_range, if_pos (hvalid a (List.mem_cons_self _ _)),
      List.length_cons]

theorem flatten_drop_take (bs : List (List α)) (e : Nat) (he : e < bs.length) :
    (bs.flatten.drop (((bs.take e).map List.length).sum)).take (bs.getD e []).length
      = bs.getD e [] := by
  rw [List.getD_eq_getElem _ _ he]
  have hdrop : bs.drop e = bs[e] :: bs.drop (e + 1) := List.drop_eq_getElem_cons he
  have hflat : bs.flatten = (bs.take e).flatten ++ (bs.drop e).flatten := by
    rw [← List.flatten_append, List.take_append_drop]
  rw [hflat, ← List.length_flatten, List.drop_left, hdrop, List.flatten_cons,
    List.take_left]

theorem getD_of_mem_bucket {inds : List Nat} {e p : Nat} (hp : p ∈ expertBucket inds e) :
    inds.getD p 0 = e := by
  rcases mem_expertBucket.mp hp with ⟨h1, h2⟩
  rw [List.getD_eq_getElem _ _ h1]
  have := List.getElem?_eq_getElem h1
  rw [this] at h2
  exact Option.some.inj h2

theorem dispatchOrder_eq_flatten (inds : List Nat) (numExperts : Nat) :
    dispatchOrder inds numExperts
      = ((List.range numExperts).map (fun e => expertBucket inds e)).flatten := by
  rw [dispatchOrder, List.flatMap_def]

theorem bucketMap_length (inds : List Nat) (numExperts : Nat) (g : Nat → α) :
    (bucketMap inds numExperts g).length = numExperts := by
  rw [bucketMap, List.length_map, List.length_range]

theorem bucketMap_getD (inds : List Nat) (numExperts : Nat) (g : Nat → α)
    {e : Nat} (he : e < numExperts) :
    (bucketMap inds numExperts g).getD e [] = (expertBucket inds e).map g := by
  have hl : e < (bucketMap inds numExperts g).length := by
    rw [bucketMap_length]; exact he
  rw [List.getD_eq_getElem _ _ hl]
  simp only [bucketMap]
  rw [List.getElem_map, List.getElem_range]

theorem map_dispatchOrder (inds : List Nat) (numExperts : Nat) (g : Nat → α) :
    (dispatchOrder inds numExperts).map g = (bucketMap inds numExperts g).flatten := by
  rw [dispatchOrder_eq_flatten, List.map_flatten, bucketMap, List.map_map]
  rfl

theorem bucketMap_take_lengths (inds : List Nat) (numExperts : Nat) (g : Nat → α)
    {e : Nat} (he : e ≤ numExperts) :
    (((bucketMap inds numExperts g).take e).map List.length).sum
      = ((List.range e).map (fun e' => expertCount inds e')).sum := by
  rw [bucketMap, ← List.map_take, List.take_range, Nat.min_eq_left he, List.map_map]
  apply congrArg
  apply List.map_congr_left
  intro e' _
  simp only [Function.comp_apply, List.length_map]
  rw [expertBucket_length]

theorem segExec_dispatch (f : Nat → α → β) (g : Nat → α) (inds : List Nat)
    (numExperts : Nat) :
    segExec f (getIndptr inds numExperts) numExperts ((dispatchOrder inds numExperts).map g)
      = (dispatchOrder inds numExperts).map (fun p => f (inds.getD p 0) (g p)) := by
  rw [segExec, map_dispatchOrder inds numExperts g,
    map_dispatchOrder inds numExperts (fun p => f (inds.getD p 0) (g p)),
    List.flatMap_def]
  show _ = ((List.range numExperts).map
      (fun e => (expertBucket inds e).map (fun p => f (inds.getD p 0) (g p)))).flatten
  apply congrArg
  apply List.map_congr_left
  intro e hemem
  have he : e < numExperts := List.mem_range.mp hemem
  have hdiff : (getIndptr inds numExperts).getD (e + 1) 0
      - (getIndptr inds numExperts).getD e 0
      = ((bucketMap inds numExperts g).getD e []).length := by
    rw [getIndptr_diff _ _ _ he, bucketMap_getD inds numExperts g he, List.length_map,
      expertBucket_length]
  have hd1 : (getIndptr inds numExperts).getD e 0
      = (((bucketMap inds numExperts g).take e).map List.length).sum := by
    rw [getIndptr_getD _ _ _ (Nat.le_of_lt he),
      bucketMap_take_lengths inds numExperts g (Nat.le_of_lt he)]
  rw [hdiff, hd1,
    flatten_drop_take (bucketMap inds numExperts g) e
      (by rw [bucketMap_length]; exact he),
    bucketMap_getD inds numExperts g he, List.map_map]
  apply List.map_congr_left
  intro p hp
  simp only [Function.comp_apply]
  rw [getD_of_mem_bucket hp]

theorem moeRoutedGeneral_eq_map (silu : ℚ → ℚ) (gateUp down : Nat → Matrix)
    (numExperts k : Nat) (tokens : List Vec) (inds : List Nat)
    (hvalid : ∀ x ∈ inds, x < numExperts) :
    moeRoutedGeneral silu gateUp down numExperts k tokens inds
      = (List.range inds.length).map
          (fun p => gluForward silu (gateUp (inds.getD p 0)) (down (inds.getD p 0))
            (tokens.getD (p / k) [])) := by
  rw [moeRoutedGeneral,
    segExec_dispatch (fun e v => gluForward silu (gateUp e) (down e) v)
      (fun p => tokens.getD (p / k) []) inds numExperts]
  exact scatterOutput_map _ [] _ _ (dispatchOrder_perm_range inds numExperts hvalid)

theorem map_eq_range_map (f : Nat → α) (inds : List Nat) :
    inds.map f = (List.range inds.length).map (fun p => f (inds.getD p 0)) := by
  apply List.ext_getElem
  · rw [List.length_map, List.length_map, List.length_range]
  · intro n h1 h2
    rw [List.getElem_map, List.getElem_map, List.getElem_range]
    have hn : n < inds.length := by
      rw [List.length_map] at h1; exact h1
    rw [List.getD_eq_getElem _ _ hn]

theorem moeRoutedGeneral_eq_fast (silu : ℚ → ℚ) (gateUp down : Nat → Matrix)
    (numExperts k : Nat) (tokens : List Vec) (inds : List Nat)
    (hvalid : ∀ x ∈ inds, x < numExperts) (hlen : inds.length = k) :
    moeRoutedGeneral silu gateUp down numExperts k tokens inds
      = moeRoutedFast silu gateUp down tokens inds := by
  rw [moeRoutedGeneral_eq_map silu gateUp down numExperts k tokens inds hvalid,
    moeRoutedFast,
    map_eq_range_map (fun e => gluForward silu (gateUp e) (down e) (tokens.getD 0 [])) inds]
  apply List.map_congr_left
  intro p hp
  have hpk : p < k := by rw [← hlen]; exact List.mem_range.mp hp
  rw [Nat.div_eq_of_lt hpk]

/-- Claim C1: for every valid gating output (all expert indices in range, more than
one token), the router's dispatch order visits every flattened assignment
exactly once (it is a permutation of the original flattened order, so every
assignment appears exactly once in dispatch order and exactly once in the
inverse permutation), and scattering the executed dispatch rows back through
`reverse_indices` places each executed row at exactly the original flattened
position of its assignment. -/
theorem router_dispatch_scatter_bijection {α : Type} (inds : List Nat)
    (numExperts numTokens k : Nat) (_hlen : inds.length = numTokens * k)
    (hvalid : ∀ x ∈ inds, x < numExperts) (_htok : 1 < numTokens) :
    List.Perm (dispatchOrder inds numExperts) (List.range inds.length) ∧
    (∀ p, p < inds.length → (dispatchOrder inds numExperts).count p = 1) ∧
    (∀ (g : Nat → α) (d : α),
      scatterOutput ((dispatchOrder inds numExperts).map g)
        (dispatchOrder inds numExperts) inds.length d
        = (List.range inds.length).map g) := by
  have hperm := dispatchOrder_perm_range inds numExperts hvalid
  refine ⟨hperm, ?_, ?_⟩
  · intro p hp
    rw [hperm.count_eq]
    exact List.count_eq_one_of_mem (List.nodup_range _) (List.mem_range.mpr hp)
  · intro g d
    exact scatterOutput_map g d _ _ hperm

theorem router_dispatch_scatter_bijection_witness :
    ([0, 2, 1, 3, 0, 1] : List Nat).length = 3 * 2 ∧
    (∀ x ∈ ([0, 2, 1, 3, 0, 1] : List Nat), x < 4) ∧
    1 < 3 ∧
    (List.Perm (dispatchOrder [0, 2, 1, 3, 0, 1] 4)
      (List.range ([0, 2, 1, 3, 0, 1] : List Nat).length) ∧
    (∀ p, p < ([0, 2, 1, 3, 0, 1] : List Nat).length →
      (dispatchOrder [0, 2, 1, 3, 0, 1] 4).count p = 1) ∧
    (∀ (g : Nat → Nat) (d : Nat),
      scatterOutput ((dispatchOrder [0, 2, 1, 3, 0, 1] 4).map g)
        (dispatchOrder [0, 2, 1, 3, 0, 1] 4) ([0, 2, 1, 3, 0, 1] : List Nat).length d
        = (List.range ([0, 2, 1, 3, 0, 1] : List Nat).length).map g)) :=
  ⟨by decide, by decide, by decide,
    router_dispatch_scatter_bijection (α := Nat) [0, 2, 1, 3, 0, 1] 4 3 2
      (by decide) (by decide) (by decide)⟩

/-- Claim C4 (amended): for every valid gating output the router's indptr has length
`numExperts + 1` and is the exclusive prefix sum of per-expert assignment
counts: `indptr (e+1) = indptr e + count e`, each expert's rows are exactly the
slice of dispatch order starting at `indptr e` of length `count e` (empty for
experts receiving zero tokens), and the per-expert range lengths sum to
`numTokens * k`. On the end-to-end example (three tokens routed to expert pairs
{0,2}, {1,3}, {0,1} with four experts) the indptr is `[0, 2, 4, 5, 6]`. -/
theorem getIndptr_spec (inds : List Nat) (numExperts numTokens k : Nat)
    (hlen : inds.length = numTokens * k) (hvalid : ∀ x ∈ inds, x < numExperts) :
    (getIndptr inds numExperts).length = numExperts + 1 ∧
    (∀ e, e < numExperts →
      (getIndptr inds numExperts).getD (e + 1) 0
        = (getIndptr inds numExperts).getD e 0 + expertCount inds e) ∧
    (∀ e, e < numExperts →
      ((dispatchOrder inds numExperts).drop ((getIndptr inds numExperts).getD e 0)).take
        (expertCount inds e) = expertBucket inds e) ∧
    (∀ e, e < numExperts → expertCount inds e = 0 →
      (getIndptr inds numExperts).getD (e + 1) 0 = (getIndptr inds numExperts).getD e 0) ∧
    ((List.range numExperts).map
      (fun e => (getIndptr inds numExperts).getD (e + 1) 0
        - (getIndptr inds numExperts).getD e 0)).sum = numTokens * k ∧
    getIndptr [0, 2, 1, 3, 0, 1] 4 = [0, 2, 4, 5, 6] := by
  have hstep : ∀ e, e < numExperts →
      (getIndptr inds numExperts).getD (e + 1) 0
        = (getIndptr inds numExperts).getD e 0 + expertCount inds e := by
    intro e he
    rw [getIndptr_getD _ _ _ he, getIndptr_getD _ _ _ (Nat.le_of_lt he),
      sum_range_map_succ]
  refine ⟨getIndptr_length inds numExperts, hstep, ?_, ?_, ?_, by decide⟩
  · intro e he
    have hflat : dispatchOrder inds numExperts
        = (bucketMap inds numExperts (fun p => p)).flatten := by
      rw [← map_dispatchOrder inds numExperts (fun p => p)]
      exact (List.map_id' _).symm
    have hcount : expertCount inds e
        = ((bucketMap inds numExperts (fun p => p)).getD e []).length := by
      rw [bucketMap_getD inds numExperts _ he, List.length_map, expertBucket_length]
    have hd1 : (getIndptr inds numExperts).getD e 0
        = (((bucketMap inds numExperts (fun p => p)).take e).map List.length).sum := by
      rw [getIndptr_getD _ _ _ (Nat.le_of_lt he),
        bucketMap_take_lengths inds numExperts _ (Nat.le_of_lt he)]
    rw [hflat, hcount, hd1,
      flatten_drop_take (bucketMap inds numExperts (fun p => p)) e
        (by rw [bucketMap_length]; exact he),
      bucketMap_getD inds numExperts _ he]
    exact List.map_id' _
  · intro e he hzero
    rw [hstep e he, hzero, Nat.add_zero]
  · have hmap : (List.range numExperts).map
        (fun e => (getIndptr inds numExperts).getD (e + 1) 0
          - (getIndptr inds numExperts).getD e 0)
        = (List.range numExperts).map (fun e => expertCount inds e) := by
      apply List.map_congr_left
      intro e he
      exact getIndptr_diff inds numExperts e (List.mem_range.mp he)
    rw [hmap, sum_expertCount inds numExperts hvalid, hlen]

theorem getIndptr_spec_witness :
    ([0, 2, 1, 3, 0, 1] : List Nat).length = 3 * 2 ∧
    (∀ x ∈ ([0, 2, 1, 3, 0, 1] : List Nat), x < 4) ∧
    (getIndptr [0, 2, 1, 3, 0, 1] 4).length = 4 + 1 :=
  ⟨by decide, by decide,
    (getIndptr_spec [0, 2, 1, 3, 0, 1] 4 3 2 (by decide) (by decide)).1⟩

/-- Claim C4 counterexample: on the claim's own end-to-end example (three tokens
routed to expert pairs {0,2}, {1,3}, {0,1}, four experts, two experts per
token), the router's indptr is `[0, 2, 4, 5, 6]` (expert 3 receives the second
slot of token 1), not `[0, 2, 4, 5, 5]`; the claimed value would also break the
claim's own sum invariant, since its range lengths sum to 5, not 3 × 2. -/
theorem getIndptr_example_counterexample :
    getIndptr [0, 2, 1, 3, 0, 1] 4 ≠ [0, 2, 4, 5, 5] ∧
    getIndptr [0, 2, 1, 3, 0, 1] 4 = [0, 2, 4, 5, 6] := by
  decide

/-- Claim C3: on a one-token input, the fast path selected by `forward` (which skips
moe_cumsum, get_indices, get_indptr, the gather and scatter_output, and applies
the selected experts directly in gating order) produces the same MoE block
output as the general batched path, including the weighting-and-sum and the
shared-expert addition. -/
theorem moe_forward_single_token_equiv (silu : ℚ → ℚ) (moe : DeepseekMoE)
    (tokens : List Vec) (weights : List ℚ) (inds : List Nat)
    (htok : tokens.length = 1)
    (hlen : inds.length = moe.num_experts_per_tok)
    (hvalid : ∀ x ∈ inds, x < moe.num_local_experts) :
    DeepseekMoE.forward silu moe tokens weights inds
      = DeepseekMoE.forwardGeneralPath silu moe tokens weights inds := by
  simp only [DeepseekMoE.forward, DeepseekMoE.forwardGeneralPath,
    moeRoutedGeneral_eq_fast silu moe.moe_gate_up_proj moe.moe_down_proj
      moe.num_local_experts moe.num_experts_per_tok tokens inds hvalid hlen,
    htok, ite_self]

theorem moe_forward_single_token_equiv_witness :
    ([[(1 : ℚ), 2]] : List Vec).length = 1 ∧
    ([1, 0] : List Nat).length = moeW.num_experts_per_tok ∧
    (∀ x ∈ ([1, 0] : List Nat), x < moeW.num_local_experts) ∧
    DeepseekMoE.forward (fun x => x) moeW [[(1 : ℚ), 2]] [1/2, 1/2] [1, 0]
      = DeepseekMoE.forwardGeneralPath (fun x => x) moeW [[(1 : ℚ), 2]] [1/2, 1/2] [1, 0] :=
  ⟨rfl, rfl, by decide,
    moe_forward_single_token_equiv (fun x => x) moeW [[(1 : ℚ), 2]] [1/2, 1/2] [1, 0]
      rfl rfl (by decide)⟩

/-- Claim C2: for every in-range layer index (with a positive `moe_layer_freq`; an
integer modulo by zero would already fail in the source language), the decoder
layer's feed-forward sub-layer is the plain dense MLP exactly when the index is
below `first_k_dense_replace` or is not a multiple of `moe_layer_freq`, and the
MoE block for all other indices; the choice is a pure function of the layer
index and the configuration, fixed once at construction. -/
theorem decoder_layer_selection (c : DeepseekConfig) (i : Nat)
    (_hfreq : 0 < c.moe_layer_freq) (_hi : i < c.num_hidden_layers) :
    (decoderFFNKind c i = FFNKind.dense ↔
      (i < c.first_k_dense_replace ∨ i % c.moe_layer_freq ≠ 0)) ∧
    (decoderFFNKind c i = FFNKind.moe ↔
      (c.first_k_dense_replace ≤ i ∧ i % c.moe_layer_freq = 0)) := by
  rw [decoderFFNKind]
  split_ifs with h
  · obtain ⟨ha, hb⟩ := h
    refine ⟨⟨(fun hd => nomatch hd), fun hor => ?_⟩, ⟨fun _ => ⟨ha, hb⟩, fun _ => rfl⟩⟩
    exfalso
    rcases hor with h1 | h2
    · omega
    · exact h2 hb
  · refine ⟨⟨fun _ => ?_, fun _ => rfl⟩,
      ⟨(fun hd => nomatch hd), fun hand => absurd hand h⟩⟩
    by_contra hnor
    push_neg at hnor
    exact h ⟨by omega, hnor.2⟩

theorem decoder_layer_selection_witness :
    0 < cfgNoShared.moe_layer_freq ∧ 1 < cfgNoShared.num_hidden_layers ∧
    ((decoderFFNKind cfgNoShared 1 = FFNKind.dense ↔
      (1 < cfgNoShared.first_k_dense_replace ∨ 1 % cfgNoShared.moe_layer_freq ≠ 0)) ∧
    (decoderFFNKind cfgNoShared 1 = FFNKind.moe ↔
      (cfgNoShared.first_k_dense_replace ≤ 1 ∧ 1 % cfgNoShared.moe_layer_freq = 0))) :=
  ⟨by decide, by decide, decoder_layer_selection cfgNoShared 1 (by decide) (by decide)⟩

theorem castLogitsToF32_dtype (t : TypedTensor) :
    (castLogitsToF32 t).dtype = DType.float32 := by
  rw [castLogitsToF32]
  split_ifs with h
  · rfl
  · push_neg at h
    rw [h]

theorem castLogitsToF32_data (t : TypedTensor) :
    (castLogitsToF32 t).data = t.data := by
  rw [castLogitsToF32]
  split_ifs <;> rfl

/-- Claim C10: every logits-returning entry point returns float32 logits for every
model dtype: the lm_head output (which carries the model dtype) is cast to
float32 whenever its dtype differs, in `batch_forward`, `prefill`, `decode`,
and the `batch_prefill` / `batch_decode` / `batch_verify` wrappers. -/
theorem logits_always_float32 (lmHead : Matrix) (dtype : DType) (hs : List Vec)
    (ps : List Nat) (lp : Option (List Nat)) :
    (prefill lmHead dtype hs).dtype = DType.float32 ∧
    (decode lmHead dtype hs).dtype = DType.float32 ∧
    (batch_forward lmHead dtype hs lp).dtype = DType.float32 ∧
    (batch_prefill lmHead dtype hs ps).dtype = DType.float32 ∧
    (batch_decode lmHead dtype hs).dtype = DType.float32 ∧
    (batch_verify lmHead dtype hs).dtype = DType.float32 :=
  ⟨castLogitsToF32_dtype _, castLogitsToF32_dtype _, castLogitsToF32_dtype _,
    castLogitsToF32_dtype _, castLogitsToF32_dtype _, castLogitsToF32_dtype _⟩

/-- Claim C9: for every model output over a sequence of length at least one, the
prefill entry point returns logits with exactly one sequence position, of width
the lm_head row count (the vocabulary size), computed from the hidden state at
the final position only: two model outputs of the same length agreeing at
position `seq_len - 1` produce identical prefill logits, whatever their earlier
positions hold. -/
theorem prefill_uses_last_position_only (lmHead : Matrix) (dtype : DType)
    (hs₁ hs₂ : List Vec) (_hlen : hs₁.length = hs₂.length) (_hpos : 0 < hs₁.length)
    (hlast : hs₁.getD (hs₁.length - 1) [] = hs₂.getD (hs₂.length - 1) []) :
    prefill lmHead dtype hs₁ = prefill lmHead dtype hs₂ ∧
    (prefill lmHead dtype hs₁).data.length = 1 ∧
    (∀ v ∈ (prefill lmHead dtype hs₁).data, v.length = lmHead.length) := by
  have hidx : indexLast hs₁ = indexLast hs₂ := by
    rw [indexLast, indexLast, hlast]
  refine ⟨?_, ?_, ?_⟩
  · rw [prefill, prefill, hidx]
  · rw [prefill, castLogitsToF32_data]
    rw [List.length_map, indexLast, List.length_singleton]
  · intro v hv
    rw [prefill, castLogitsToF32_data] at hv
    rcases List.mem_map.mp hv with ⟨w, -, hw⟩
    rw [← hw, linear, List.length_map]

theorem prefill_uses_last_position_only_witness :
    ([[(1 : ℚ)], [2], [3]] : List Vec).length = ([[9], [8], [3]] : List Vec).length ∧
    0 < ([[(1 : ℚ)], [2], [3]] : List Vec).length ∧
    ([[(1 : ℚ)], [2], [3]] : List Vec).getD (([[(1 : ℚ)], [2], [3]] : List Vec).length - 1) []
      = ([[(9 : ℚ)], [8], [3]] : List Vec).getD (([[(9 : ℚ)], [8], [3]] : List Vec).length - 1) [] ∧
    (prefill [[2], [5]] DType.float16 [[(1 : ℚ)], [2], [3]]
        = prefill [[2], [5]] DType.float16 [[(9 : ℚ)], [8], [3]] ∧
      (prefill [[2], [5]] DType.float16 [[(1 : ℚ)], [2], [3]]).data.length = 1 ∧
      (∀ v ∈ (prefill [[2], [5]] DType.float16 [[(1 : ℚ)], [2], [3]]).data,
        v.length = ([[2], [5]] : Matrix).length)) :=
  ⟨rfl, by decide, by decide,
    prefill_uses_last_position_only [[2], [5]] DType.float16
      [[(1 : ℚ)], [2], [3]] [[(9 : ℚ)], [8], [3]] rfl (by decide) (by decide)⟩

theorem resolveContextWindow_shards (c c' : DeepseekConfig)
    (h : resolveContextWindow c = Except.ok c') :
    c'.tensor_parallel_shards = c.tensor_parallel_shards := by
  rw [resolveContextWindow] at h
  split_ifs at h
  · cases h1 : lookupKwarg c.kwargs ("max_position_embeddings") with
    | some v =>
        rw [h1] at h
        rw [← Except.ok.inj h]
    | none =>
        rw [h1] at h
        cases h2 : lookupKwarg c.kwargs ("max_sequence_length") with
        | some v =>
            rw [h2] at h
            rw [← Except.ok.inj h]
        | none =>
            rw [h2] at h
            exact nomatch h
  · rw [← Except.ok.inj h]

theorem clampPrefillChunk_shards (c : DeepseekConfig) :
    (clampPrefillChunk c).tensor_parallel_shards = c.tensor_parallel_shards := by
  rw [clampPrefillChunk]
  split_ifs <;> rfl

/-- Claim C7: configuration errors are fatal at construction time: with a zero
context window and neither `max_position_embeddings` nor `max_sequence_length`
in the kwargs, post-init fails; with `tensor_parallel_shards ≠ 1` no post-init
succeeds (the final assert forbids sharding); an attention sub-layer whose head
count is not divisible by the shard count fails to construct; and a dense MLP
whose configured intermediate size is not divisible by the shard count fails to
construct. -/
theorem config_errors_fatal (c : DeepseekConfig) :
    (c.context_window_size = 0 →
      lookupKwarg c.kwargs ("max_position_embeddings") = none →
      lookupKwarg c.kwargs ("max_sequence_length") = none →
      ∀ c', postInit c ≠ Except.ok c') ∧
    (c.tensor_parallel_shards ≠ 1 → ∀ c', postInit c ≠ Except.ok c') ∧
    (c.num_attention_heads % c.tensor_parallel_shards ≠ 0 →
      ∀ a, DeepseekAttention.init c ≠ Except.ok a) ∧
    (c.intermediate_size % c.tensor_parallel_shards ≠ 0 →
      ∀ intermediate gu dw m, DeepseekMLP.init c intermediate gu dw ≠ Except.ok m) := by
  refine ⟨?_, ?_, ?_, ?_⟩
  · intro h0 h1 h2 c' hok
    have hres : resolveContextWindow c
        = Except.error ("Unable to determine the maximum sequence length.") := by
      rw [resolveContextWindow, if_pos h0, h1, h2]
    rw [postInit, hres] at hok
    exact nomatch hok
  · intro hne c' hok
    rw [postInit] at hok
    cases hres : resolveContextWindow c with
    | error e =>
        rw [hres] at hok
        exact nomatch hok
    | ok c₁ =>
        rw [hres] at hok
        simp only [bind, Except.bind] at hok
        have hshards : ¬(clampPrefillChunk c₁).tensor_parallel_shards = 1 := by
          rw [clampPrefillChunk_shards, resolveContextWindow_shards c c₁ hres]
          exact hne
        rw [if_neg hshards] at hok
        exact nomatch hok
  · intro hne a hok
    unfold DeepseekAttention.init at hok
    rw [if_pos hne] at hok
    exact nomatch hok
  · intro hne intermediate gu dw m hok
    unfold DeepseekMLP.init at hok
    rw [if_pos hne] at hok
    exact nomatch hok

theorem config_errors_fatal_witness :
    cfgBad.context_window_size = 0 ∧
    lookupKwarg cfgBad.kwargs ("max_position_embeddings") = none ∧
    lookupKwarg cfgBad.kwargs ("max_sequence_length") = none ∧
    cfgBad.tensor_parallel_shards ≠ 1 ∧
    cfgBad.num_attention_heads % cfgBad.tensor_parallel_shards ≠ 0 ∧
    cfgBad.intermediate_size % cfgBad.tensor_parallel_shards ≠ 0 ∧
    (∀ c', postInit cfgBad ≠ Except.ok c') ∧
    (∀ a, DeepseekAttention.init cfgBad ≠ Except.ok a) ∧
    (∀ intermediate gu dw m, DeepseekMLP.init cfgBad intermediate gu dw ≠ Except.ok m) :=
  ⟨rfl, rfl, rfl, by decide, by decide, by decide,
    (config_errors_fatal cfgBad).1 rfl rfl rfl,
    (config_errors_fatal cfgBad).2.2.1 (by decide),
    (config_errors_fatal cfgBad).2.2.2 (by decide)⟩

/-- Claim C8: the dense MLP's forward computes `down_proj (silu x1 * x2)` with silu
as the gating nonlinearity regardless of the configured `hidden_act`: for any
two supported activation names the constructions succeed (given the
shard-divisibility check), the two modules store the activations selected from
`ACT2FN`, yet they produce identical outputs on every input, because the
`act_fn` selected at construction is never applied in the forward computation. -/
theorem mlp_forward_ignores_hidden_act (c : DeepseekConfig) (s₁ s₂ : String)
    (a₁ a₂ : ActKind) (h1 : ACT2FN s₁ = some a₁) (h2 : ACT2FN s₂ = some a₂)
    (hdiv : c.intermediate_size % c.tensor_parallel_shards = 0)
    (intermediate : Option Nat) (gateUp down : Matrix) :
    ∃ m₁ m₂,
      DeepseekMLP.init { c with hidden_act := s₁ } intermediate gateUp down
        = Except.ok m₁ ∧
      DeepseekMLP.init { c with hidden_act := s₂ } intermediate gateUp down
        = Except.ok m₂ ∧
      m₁.act_fn = a₁ ∧ m₂.act_fn = a₂ ∧
      (∀ silu x, DeepseekMLP.forward silu m₁ x = DeepseekMLP.forward silu m₂ x) ∧
      (∀ silu x, DeepseekMLP.forward silu m₁ x = gluForward silu gateUp down x) := by
  have hinit : ∀ s a, ACT2FN s = some a →
      DeepseekMLP.init { c with hidden_act := s } intermediate gateUp down
        = Except.ok
            { intermediate_size := intermediate.getD c.intermediate_size
              gate_up_proj := gateUp
              down_proj := down
              act_fn := a } := by
    intro s a ha
    unfold DeepseekMLP.init
    rw [if_neg (not_not_intro hdiv)]
    have hproj : ({ c with hidden_act := s } : DeepseekConfig).hidden_act = s := rfl
    rw [hproj, ha]
  exact ⟨_, _, hinit s₁ a₁ h1, hinit s₂ a₂ h2, rfl, rfl,
    fun silu x => rfl, fun silu x => rfl⟩

theorem mlp_forward_ignores_hidden_act_witness :
    ACT2FN ("gelu") = some (ActKind.gelu false) ∧
    ACT2FN ("relu") = some ActKind.relu ∧
    cfgNoShared.intermediate_size % cfgNoShared.tensor_parallel_shards = 0 ∧
    (∃ m₁ m₂,
      DeepseekMLP.init { cfgNoShared with hidden_act := "gelu" } none
        [[1, 1], [1, -1]] [[1], [1]] = Except.ok m₁ ∧
      DeepseekMLP.init { cfgNoShared with hidden_act := "relu" } none
        [[1, 1], [1, -1]] [[1], [1]] = Except.ok m₂ ∧
      m₁.act_fn = ActKind.gelu false ∧ m₂.act_fn = ActKind.relu ∧
      (∀ silu x, DeepseekMLP.forward silu m₁ x = DeepseekMLP.forward silu m₂ x) ∧
      (∀ silu x, DeepseekMLP.forward silu m₁ x
        = gluForward silu [[1, 1], [1, -1]] [[1], [1]] x)) :=
  ⟨rfl, rfl, rfl,
    mlp_forward_ignores_hidden_act cfgNoShared ("gelu") ("relu")
      (ActKind.gelu false) ActKind.relu rfl rfl rfl none
      [[1, 1], [1, -1]] [[1], [1]]⟩

/-- Claim C6 counterexample: with `n_shared_experts = None`, construction of the MoE
block succeeds (the shared MLP is simply never created, source line 181), but
the forward pass produces no output at all, because `self.shared_experts` is
accessed unconditionally at source line 228; so for this accepted
configuration the block output is not the combined routed output plus the
shared-expert output. -/
theorem moe_shared_none_counterexample :
    (DeepseekMoE.init cfgNoShared (fun _ => [[1, 0], [0, 1]]) (fun _ => [[1], [2]])
        [] []).map
      (fun moe => DeepseekMoE.forward (fun x => x) moe [[(1 : ℚ), 0], [0, 1]]
        [1/2, 1/2, 1/2, 1/2] [0, 1, 1, 0])
      = Except.ok none := rfl

/-- Claim C6 (amended): for every configuration accepted at construction whose
`n_shared_experts` is present — any value, including zero — the shared-expert
MLP (dense, of intermediate width `moe_intermediate_size * n_shared_experts`)
is applied to every token unconditionally and without permutation,
independently of the routing result (the shared summand depends only on the
token list), and the MoE block output is exactly the combined routed output
plus the per-token shared-expert output. When `n_shared_experts` is `None`,
construction succeeds but the forward pass yields no output (see the
counterexample), so the equation holds only for present values. -/
theorem moe_shared_expert_unconditional (c : DeepseekConfig) (m : Nat)
    (hm : c.n_shared_experts = some m) (gateUp down : Nat → Matrix)
    (sgu sdw : Matrix) (moe : DeepseekMoE)
    (hinit : DeepseekMoE.init c gateUp down sgu sdw = Except.ok moe)
    (silu : ℚ → ℚ) (tokens : List Vec) (weights : List ℚ) (inds : List Nat) :
    ∃ sh, moe.shared_experts = some sh ∧
      sh.intermediate_size = c.moe_intermediate_size * m ∧
      sh.gate_up_proj = sgu ∧ sh.down_proj = sdw ∧
      DeepseekMoE.forward silu moe tokens weights inds
        = some (List.zipWith vadd
            (combineRouted tokens.length moe.num_experts_per_tok weights
              (if tokens.length == 1 then
                moeRoutedFast silu moe.moe_gate_up_proj moe.moe_down_proj tokens inds
              else
                moeRoutedGeneral silu moe.moe_gate_up_proj moe.moe_down_proj
                  moe.num_local_experts moe.num_experts_per_tok tokens inds))
            (tokens.map (fun t => gluForward silu sgu sdw t))) := by
  rw [DeepseekMoE.init] at hinit
  simp only [hm] at hinit
  cases hsh : DeepseekMLP.init c (some (c.moe_intermediate_size * m)) sgu sdw with
  | error err =>
      rw [hsh] at hinit
      exact nomatch hinit
  | ok sh =>
      rw [hsh] at hinit
      simp only [Except.map, bind, Except.bind] at hinit
      have hmoe := Except.ok.inj hinit
      unfold DeepseekMLP.init at hsh
      split_ifs at hsh with hdiv
      cases hact : ACT2FN c.hidden_act with
      | none =>
          rw [hact] at hsh
          exact nomatch hsh
      | some a =>
          rw [hact] at hsh
          have hshrec := Except.ok.inj hsh
          refine ⟨sh, ?_, ?_, ?_, ?_, ?_⟩
          · rw [← hmoe]
          · rw [← hshrec]
            rfl
          · rw [← hshrec]
          · rw [← hshrec]
          · rw [DeepseekMoE.forward, ← hmoe, ← hshrec]
            rfl

theorem moe_shared_expert_unconditional_witness :
    cfgShared.n_shared_experts = some 2 ∧
    DeepseekMoE.init cfgShared (fun _ => [[1, 0], [0, 1]]) (fun _ => [[1], [2]])
      [[1, 1], [1, -1]] [[1], [1]] = Except.ok moeShared ∧
    (∃ sh, moeShared.shared_experts = some sh ∧
      sh.intermediate_size = cfgShared.moe_intermediate_size * 2 ∧
      sh.gate_up_proj = [[1, 1], [1, -1]] ∧ sh.down_proj = [[1], [1]] ∧
      DeepseekMoE.forward (fun x => x) moeShared [[(1 : ℚ), 2]] [1/2, 1/2] [1, 0]
        = some (List.zipWith vadd
            (combineRouted ([[(1 : ℚ), 2]] : List Vec).length
              moeShared.num_experts_per_tok [1/2, 1/2]
              (if ([[(1 : ℚ), 2]] : List Vec).length == 1 then
                moeRoutedFast (fun x => x) moeShared.moe_gate_up_proj
                  moeShared.moe_down_proj [[(1 : ℚ), 2]] [1, 0]
              else
                moeRoutedGeneral (fun x => x) moeShared.moe_gate_up_proj
                  moeShared.moe_down_proj moeShared.num_local_experts
                  moeShared.num_experts_per_tok [[(1 : ℚ), 2]] [1, 0]))
            (([[(1 : ℚ), 2]] : List Vec).map
              (fun t => gluForward (fun x => x) [[1, 1], [1, -1]] [[1], [1]] t)))) :=
  ⟨rfl, rfl,
    moe_shared_expert_unconditional cfgShared 2 rfl
      (fun _ => [[1, 0], [0, 1]]) (fun _ => [[1], [2]]) [[1, 1], [1, -1]] [[1], [1]]
      moeShared rfl (fun x => x) [[(1 : ℚ), 2]] [1/2, 1/2] [1, 0]⟩

theorem gatingTopk_sel (probs : List ℚ) (k : Nat) (norm : Bool) :
    (gatingTopk probs k norm).2
      = (List.insertionSort (topkKey probs) (List.range probs.length)).take k := rfl

theorem mem_gatingTopk_sel_lt {probs : List ℚ} {k i : Nat} {norm : Bool}
    (hi : i ∈ (gatingTopk probs k norm).2) : i < probs.length := by
  rw [gatingTopk_sel] at hi
  have h1 := List.take_subset k _ hi
  have h2 := (List.perm_insertionSort (topkKey probs) (List.range probs.length)).mem_iff.mp h1
  exact List.mem_range.mp h2

theorem sum_map_div (l : List ℚ) (s : ℚ) :
    (l.map (fun w => w / s)).sum = l.sum / s := by
  induction l with
  | nil => simp
  | cons a t ih => simp [ih, add_div]

/-- Claim C5: per token, over the (positive) softmax probability vector produced by
the gate: with `norm_topk_prob` enabled the `k` selected gate weights sum to
exactly 1; with it disabled each selected weight equals the raw softmax value
at the selected expert index; and top-k ties are broken by lowest expert index,
so whenever a selected index has the same probability as a smaller index, the
smaller index is selected as well. -/
theorem gating_topk_weights (probs : List ℚ) (k : Nat)
    (hpos : ∀ q ∈ probs, 0 < q) (hk : 0 < k) (hkle : k ≤ probs.length) :
    ((gatingTopk probs k true).1).sum = 1 ∧
    (gatingTopk probs k false).1
      = ((gatingTopk probs k false).2).map (fun i => probs.getD i 0) ∧
    (∀ norm : Bool, ∀ i ∈ (gatingTopk probs k norm).2, ∀ j, j < i →
      probs.getD j 0 = probs.getD i 0 → j ∈ (gatingTopk probs k norm).2) := by
  refine ⟨?_, rfl, ?_⟩
  · have h1 : (gatingTopk probs k true).1
        = ((gatingTopk probs k true).2.map (fun i => probs.getD i 0)).map
            (fun w => w / ((gatingTopk probs k true).2.map (fun i => probs.getD i 0)).sum) :=
      rfl
    have hpos' : ∀ w ∈ (gatingTopk probs k true).2.map (fun i => probs.getD i 0), 0 < w := by
      intro w hw
      rcases List.mem_map.mp hw with ⟨i, hi, rfl⟩
      have hlt : i < probs.length := mem_gatingTopk_sel_lt hi
      rw [List.getD_eq_getElem _ _ hlt]
      exact hpos _ (List.getElem_mem hlt)
    have hlen2 : (gatingTopk probs k true).2.length = k := by
      rw [gatingTopk_sel, List.length_take, List.length_insertionSort, List.length_range]
      exact Nat.min_eq_left hkle
    have hne : (gatingTopk probs k true).2.map (fun i => probs.getD i 0) ≠ [] := by
      apply List.ne_nil_of_length_pos
      rw [List.length_map, hlen2]
      exact hk
    have hS : 0 < ((gatingTopk probs k true).2.map (fun i => probs.getD i 0)).sum :=
      List.sum_pos _ hpos' hne
    rw [h1, sum_map_div]
    exact div_self (ne_of_gt hS)
  · intro norm i hi j hj hpeq
    rw [gatingTopk_sel] at hi ⊢
    by_contra hjnot
    have hperm := List.perm_insertionSort (topkKey probs) (List.range probs.length)
    have hisorted : i ∈ List.insertionSort (topkKey probs) (List.range probs.length) :=
      List.take_subset k _ hi
    have hilen : i < probs.length := List.mem_range.mp (hperm.mem_iff.mp hisorted)
    have hjlen : j < probs.length := lt_trans hj hilen
    have hjsorted : j ∈ List.insertionSort (topkKey probs) (List.range probs.length) :=
      hperm.mem_iff.mpr (List.mem_range.mpr hjlen)
    rw [← List.take_append_drop k
      (List.insertionSort (topkKey probs) (List.range probs.length))] at hjsorted
    have hjdrop : j ∈ (List.insertionSort (topkKey probs) (List.range probs.length)).drop k := by
      rcases List.mem_append.mp hjsorted with hcase | hcase
      · exact absurd hcase hjnot
      · exact hcase
    have hsorted : List.Pairwise (topkKey probs)
        (List.insertionSort (topkKey probs) (List.range probs.length)) :=
      List.sorted_insertionSort (topkKey probs) (List.range probs.length)
    have hpw : List.Pairwise (topkKey probs)
        ((List.insertionSort (topkKey probs) (List.range probs.length)).take k
          ++ (List.insertionSort (topkKey probs) (List.range probs.length)).drop k) := by
      rw [List.take_append_drop]
      exact hsorted
    have hrel : topkKey probs i j := (List.pairwise_append.mp hpw).2.2 i hi j hjdrop
    rcases hrel with hlt | ⟨heq, hle⟩
    · rw [hpeq] at hlt
      exact lt_irrefl _ hlt
    · omega

theorem gating_topk_weights_witness :
    (∀ q ∈ ([1, 1, 2] : List ℚ), 0 < q) ∧ 0 < 2 ∧
      2 ≤ ([1, 1, 2] : List ℚ).length ∧
    (((gatingTopk [1, 1, 2] 2 true).1).sum = 1 ∧
      (gatingTopk [1, 1, 2] 2 false).1
        = ((gatingTopk [1, 1, 2] 2 false).2).map
            (fun i => ([1, 1, 2] : List ℚ).getD i 0) ∧
      (∀ norm : Bool, ∀ i ∈ (gatingTopk [1, 1, 2] 2 norm).2, ∀ j, j < i →
        ([1, 1, 2] : List ℚ).getD j 0 = ([1, 1, 2] : List ℚ).getD i 0 →
        j ∈ (gatingTopk [1, 1, 2] 2 norm).2)) :=
  ⟨by decide, by decide, by decide,
    gating_topk_weights [1, 1, 2] 2 (by decide) (by decide) (by decide)⟩

end Deepseek
